import Mathlib

/-!
Shallow embedding of the task-store portion of `server.js`: the in-memory
`tasks` map, the `nextTaskId` counter, the five `/tasks` request handlers
and the exported `resetTasks` helper.  Request bodies are JavaScript
values, modelled by `JVal`; each handler is a pure function from the store
state and its inputs to the new state and the HTTP response it sends.
-/

namespace TaskStore

/-- A JavaScript value as it can appear in a parsed JSON request-body field:
absent (`undefined`), `null`, a boolean, a number or a string. -/
inductive JVal where
  | undef : JVal
  | vnull : JVal
  | vbool : Bool → JVal
  | vnum : Int → JVal
  | vstr : String → JVal
deriving DecidableEq, Repr

/-- JavaScript truthiness: `undefined`, `null`, `false`, `0` and `""` are
falsy, everything else is truthy. -/
def JVal.truthy : JVal → Bool
  | .undef => false
  | .vnull => false
  | .vbool b => b
  | .vnum n => n != 0
  | .vstr s => s != ""

/-- `typeof v === "string"`. -/
def JVal.isString : JVal → Bool
  | .vstr _ => true
  | _ => false

/-- The underlying string of a string value (only used under an
`isString` guard, mirroring the JavaScript flow). -/
def JVal.asString : JVal → String
  | .vstr s => s
  | _ => ""

/-- A stored task record `{id, title, description}`.  `id` and `title` are
always strings in the code (validated / generated), but `description` is
stored as whatever value `description || ""` produces, so it stays a
`JVal`. -/
structure Task where
  id : String
  title : String
  description : JVal
deriving DecidableEq, Repr

/-- The `tasks` JavaScript `Map`, as an insertion-ordered association
list. -/
abbrev TaskMap := List (String × Task)

/-- `tasks.get(k)`. -/
def mapGet (m : TaskMap) (k : String) : Option Task :=
  match m with
  | [] => none
  | (k', t) :: rest => if k' = k then some t else mapGet rest k

/-- `tasks.set(k, t)`: replace the entry with key `k` in place if present,
otherwise append at the end (JavaScript `Map` insertion order). -/
def mapSet (m : TaskMap) (k : String) (t : Task) : TaskMap :=
  match m with
  | [] => [(k, t)]
  | (k', t') :: rest => if k' = k then (k, t) :: rest else (k', t') :: mapSet rest k t

/-- `tasks.delete(k)`: remove the entry with key `k` (a `Map` holds each
key at most once, so removing the first occurrence models it). -/
def mapDelete (m : TaskMap) (k : String) : TaskMap :=
  match m with
  | [] => []
  | (k', t') :: rest => if k' = k then rest else (k', t') :: mapDelete rest k

/-- The module-level mutable state: `nextTaskId` and the `tasks` map. -/
structure StoreState where
  nextTaskId : Nat
  tasks : TaskMap
deriving DecidableEq, Repr

/-- The JSON body of a response sent by a `/tasks` handler. -/
inductive RespBody where
  | task : Task → RespBody
  | taskList : List Task → RespBody
  | error : String → RespBody
  | empty : RespBody
deriving DecidableEq, Repr

/-- An HTTP response: status code and JSON body. -/
structure HttpResponse where
  status : Nat
  body : RespBody
deriving DecidableEq, Repr

/-- `resetTasks`: clears the map and resets the counter to 1; also the
state at process start. -/
def resetTasks : StoreState :=
  { nextTaskId := 1, tasks := [] }

/-- The `{ title, description }` fields destructured from `req.body || {}`;
a field missing from the body is `undef`. -/
structure BodyInput where
  title : JVal
  description : JVal
deriving DecidableEq, Repr

/-- `POST /tasks`: throws `'Field "title" is required'` when `!title ||
typeof title !== "string"`; otherwise stores
`{id: String(nextTaskId++), title, description: description || ""}` and
answers 201 with the stored record. -/
def createTask (s : StoreState) (body : BodyInput) : StoreState × HttpResponse :=
  if !body.title.truthy || !body.title.isString then
    (s, ⟨400, .error "Field \"title\" is required"⟩)
  else
    let id := toString s.nextTaskId
    let task : Task :=
      { id := id
        title := body.title.asString
        description := if body.description.truthy then body.description else JVal.vstr "" }
    ({ nextTaskId := s.nextTaskId + 1, tasks := mapSet s.tasks id task }, ⟨201, .task task⟩)

/-- `GET /tasks`: answers 200 with `Array.from(tasks.values())`. -/
def listTasks (s : StoreState) : StoreState × HttpResponse :=
  (s, ⟨200, .taskList (s.tasks.map Prod.snd)⟩)

/-- `GET /tasks/:id`: 404 `{error: "Task not found"}` when the id is
absent, otherwise 200 with the stored record. -/
def getTask (s : StoreState) (id : String) : StoreState × HttpResponse :=
  match mapGet s.tasks id with
  | none => (s, ⟨404, .error "Task not found"⟩)
  | some t => (s, ⟨200, .task t⟩)

/-- `PUT /tasks/:id`: existence check first, then the `title` patch type
check, then the `description` one; on success merges the present fields
over the stored record and answers 200 with the merged record. -/
def updateTask (s : StoreState) (id : String) (body : BodyInput) : StoreState × HttpResponse :=
  match mapGet s.tasks id with
  | none => (s, ⟨404, .error "Task not found"⟩)
  | some task =>
    if body.title ≠ JVal.undef ∧ ¬ body.title.isString then
      (s, ⟨400, .error "Field \"title\" must be a string"⟩)
    else if body.description ≠ JVal.undef ∧ ¬ body.description.isString then
      (s, ⟨400, .error "Field \"description\" must be a string"⟩)
    else
      let updated : Task :=
        { id := task.id
          title := if body.title ≠ JVal.undef then body.title.asString else task.title
          description := if body.description ≠ JVal.undef then body.description else task.description }
      ({ nextTaskId := s.nextTaskId, tasks := mapSet s.tasks task.id updated }, ⟨200, .task updated⟩)

/-- `DELETE /tasks/:id`: `tasks.delete(id)`; 404 when nothing existed,
otherwise 204 with no body. -/
def deleteTask (s : StoreState) (id : String) : StoreState × HttpResponse :=
  match mapGet s.tasks id with
  | none => (s, ⟨404, .error "Task not found"⟩)
  | some _ => ({ nextTaskId := s.nextTaskId, tasks := mapDelete s.tasks id }, ⟨204, .empty⟩)

/-- One request against the store (plus the test-only reset). -/
inductive Op where
  | create : BodyInput → Op
  | get : String → Op
  | list : Op
  | update : String → BodyInput → Op
  | del : String → Op
  | reset : Op
deriving DecidableEq, Repr

/-- Execute one operation. `reset` sends no HTTP response; we give it an
inert 200/empty one. -/
def step (s : StoreState) : Op → StoreState × HttpResponse
  | .create body => createTask s body
  | .get id => getTask s id
  | .list => listTasks s
  | .update id body => updateTask s id body
  | .del id => deleteTask s id
  | .reset => (resetTasks, ⟨200, .empty⟩)

/-- Run a sequence of operations, keeping the final state. -/
def run (s : StoreState) (ops : List Op) : StoreState :=
  ops.foldl (fun st op => (step st op).1) s

/-- States the service can be in after a reset followed by any sequence of
requests. -/
def Reachable (s : StoreState) : Prop :=
  ∃ ops : List Op, run resetTasks ops = s

/-- The id carried by a successful-create response (none otherwise). -/
def respCreatedId (r : HttpResponse) : List String :=
  if r.status = 201 then
    match r.body with
    | RespBody.task t => [t.id]
    | _ => []
  else []

/-- The ids of the tasks returned by the successful creates along a run. -/
def createdIds (s : StoreState) : List Op → List String
  | [] => []
  | op :: rest =>
    (match op with
      | Op.create _ => respCreatedId (step s op).2
      | _ => []) ++ createdIds (step s op).1 rest

/-- Numeric value of a decimal digit character. -/
def digitVal (c : Char) : Nat := c.toNat - 48

/-- Decode a list of decimal digit characters, most significant first. -/
def decDigits (l : List Char) : Nat := l.foldl (fun a c => 10 * a + digitVal c) 0

/-- Well-formedness of a store state, maintained by every handler: unique
keys, record ids matching their keys, keys that are decimal renderings of
already-consumed counter values, and a counter that never drops below 1. -/
def WF (s : StoreState) : Prop :=
  1 ≤ s.nextTaskId ∧
  (s.tasks.map Prod.fst).Nodup ∧
  (∀ p ∈ s.tasks, p.2.id = p.1) ∧
  (∀ p ∈ s.tasks, ∃ m : Nat, 1 ≤ m ∧ m < s.nextTaskId ∧ p.1 = Nat.repr m)

/-- Invariant satisfied by every stored `description`: `description || ""`
never stores `undefined` — the stored value is either truthy or the empty
string.  (It need not be a string: a truthy non-string creation value is
stored as is.) -/
def DescrOk (s : StoreState) : Prop :=
  ∀ p ∈ s.tasks, p.2.description ≠ JVal.undef ∧
    (p.2.description.truthy = true ∨ p.2.description = JVal.vstr "")

/-!
### Injectivity of the id rendering

`String(nextTaskId)` is modelled by `toString : Nat → String`, which is
`Nat.repr`.  Distinct counter values give distinct ids; we prove this by
decoding the decimal digit string back to the number.
-/

theorem digitVal_digitChar {d : Nat} (h : d < 10) : digitVal (Nat.digitChar d) = d := by
  interval_cases d <;> decide

theorem toDigitsCore_eq_append (fuel : Nat) :
    ∀ (n : Nat) (ds : List Char),
      Nat.toDigitsCore 10 fuel n ds = Nat.toDigitsCore 10 fuel n [] ++ ds := by
  induction fuel with
  | zero => intro n ds; simp [Nat.toDigitsCore]
  | succ f ih =>
    intro n ds
    simp only [Nat.toDigitsCore]
    by_cases h : n / 10 = 0
    · simp [h]
    · simp only [if_neg h]
      rw [ih (n / 10) (Nat.digitChar (n % 10) :: ds), ih (n / 10) [Nat.digitChar (n % 10)]]
      simp

theorem decDigits_append_singleton (l : List Char) (c : Char) :
    decDigits (l ++ [c]) = 10 * decDigits l + digitVal c := by
  simp [decDigits, List.foldl_append]

theorem decDigits_toDigitsCore (fuel : Nat) :
    ∀ n : Nat, n < fuel → decDigits (Nat.toDigitsCore 10 fuel n []) = n := by
  induction fuel with
  | zero => intro n h; exact absurd h (Nat.not_lt_zero n)
  | succ f ih =>
    intro n h
    simp only [Nat.toDigitsCore]
    by_cases h0 : n / 10 = 0
    · have hn : n < 10 := (Nat.div_eq_zero_iff (by norm_num)).mp h0
      simp only [if_pos h0]
      have : decDigits [Nat.digitChar (n % 10)] = digitVal (Nat.digitChar (n % 10)) := by
        simp [decDigits]
      rw [this, digitVal_digitChar (Nat.mod_lt n (by norm_num) )]
      · exact Nat.mod_eq_of_lt hn
    · have hpos : 0 < n := by
        rcases Nat.eq_zero_or_pos n with h1 | h1
        · exact absurd (by simp [h1]) h0
        · exact h1
      have hdiv : n / 10 < n := Nat.div_lt_self hpos (by norm_num)
      have hf : n / 10 < f := by omega
      simp only [if_neg h0]
      rw [toDigitsCore_eq_append f (n / 10) [Nat.digitChar (n % 10)],
        decDigits_append_singleton, ih (n / 10) hf,
        digitVal_digitChar (Nat.mod_lt n (by norm_num))]
      exact Nat.div_add_mod n 10

theorem decDigits_toDigits (n : Nat) : decDigits (Nat.toDigits 10 n) = n :=
  decDigits_toDigitsCore (n + 1) n (Nat.lt_succ_self n)

theorem natRepr_injective : Function.Injective Nat.repr := by
  intro m n h
  have hdata : Nat.toDigits 10 m = Nat.toDigits 10 n := by
    have := congrArg String.data h
    simpa [Nat.repr, List.asString] using this
  have hm := decDigits_toDigits m
  rw [hdata, decDigits_toDigits n] at hm
  exact hm.symm

theorem toString_nat_eq_repr (n : Nat) : toString n = Nat.repr n := rfl

/-! ### Association-list map lemmas -/

theorem mapGet_mem {m : TaskMap} {k : String} {t : Task} (h : mapGet m k = some t) :
    (k, t) ∈ m := by
  induction m with
  | nil => simp [mapGet] at h
  | cons p rest ih =>
    obtain ⟨k', t'⟩ := p
    rw [mapGet] at h
    by_cases hk : k' = k
    · simp only [if_pos hk] at h
      cases h
      rw [← hk]
      exact List.mem_cons_self _ _
    · simp only [if_neg hk] at h
      exact List.mem_cons_of_mem _ (ih h)

theorem mapGet_eq_none_of_not_mem {m : TaskMap} {k : String}
    (h : k ∉ m.map Prod.fst) : mapGet m k = none := by
  induction m with
  | nil => rfl
  | cons p rest ih =>
    obtain ⟨k', t'⟩ := p
    simp only [List.map_cons, List.mem_cons] at h
    push_neg at h
    rw [mapGet, if_neg (fun hk => h.1 hk.symm), ih h.2]

theorem mapGet_of_mem {m : TaskMap} {k : String} {t : Task}
    (hnd : (m.map Prod.fst).Nodup) (h : (k, t) ∈ m) : mapGet m k = some t := by
  induction m with
  | nil => simp at h
  | cons p rest ih =>
    simp only [List.map_cons, List.nodup_cons] at hnd
    rcases List.mem_cons.mp h with h1 | h1
    · rw [← h1, mapGet, if_pos rfl]
    · have hk : p.1 ≠ k := by
        intro hk
        exact hnd.1 (hk ▸ List.mem_map_of_mem Prod.fst h1)
      rw [mapGet, if_neg hk]
      exact ih hnd.2 h1

theorem mem_mapSet {m : TaskMap} {k : String} {t : Task} {p : String × Task}
    (h : p ∈ mapSet m k t) : p = (k, t) ∨ p ∈ m := by
  induction m with
  | nil => simp [mapSet] at h; left; exact h
  | cons q rest ih =>
    rw [mapSet] at h
    by_cases hk : q.1 = k
    · simp only [if_pos hk, List.mem_cons] at h
      rcases h with h | h
      · left; exact h
      · right; exact List.mem_cons_of_mem q h
    · simp only [if_neg hk, List.mem_cons] at h
      rcases h with h | h
      · right; exact h ▸ List.mem_cons_self q rest
      · rcases ih h with h1 | h1
        · left; exact h1
        · right; exact List.mem_cons_of_mem q h1

theorem mapSet_eq_append_of_not_mem {m : TaskMap} {k : String} (t : Task)
    (h : k ∉ m.map Prod.fst) : mapSet m k t = m ++ [(k, t)] := by
  induction m with
  | nil => rfl
  | cons p rest ih =>
    obtain ⟨k', t'⟩ := p
    simp only [List.map_cons, List.mem_cons] at h
    push_neg at h
    rw [mapSet, if_neg (fun hk => h.1 hk.symm), ih h.2, List.cons_append]

theorem keys_mapSet_of_mem {m : TaskMap} {k : String} (t : Task)
    (h : k ∈ m.map Prod.fst) : (mapSet m k t).map Prod.fst = m.map Prod.fst := by
  induction m with
  | nil => simp at h
  | cons p rest ih =>
    simp only [List.map_cons, List.mem_cons] at h
    by_cases hk : p.1 = k
    · rw [mapSet, if_pos hk]
      simp [hk]
    · rw [mapSet, if_neg hk]
      rcases h with h | h
      · exact absurd h.symm hk
      · simp [ih h]

theorem mapGet_mapSet_self (m : TaskMap) (k : String) (t : Task) :
    mapGet (mapSet m k t) k = some t := by
  induction m with
  | nil => simp [mapSet, mapGet]
  | cons p rest ih =>
    rw [mapSet]
    by_cases hk : p.1 = k
    · rw [if_pos hk, mapGet, if_pos rfl]
    · rw [if_neg hk, mapGet, if_neg hk]
      exact ih

theorem mem_mapDelete {m : TaskMap} {k : String} {p : String × Task}
    (h : p ∈ mapDelete m k) : p ∈ m := by
  induction m with
  | nil => simp [mapDelete] at h
  | cons q rest ih =>
    rw [mapDelete] at h
    by_cases hk : q.1 = k
    · rw [if_pos hk] at h
      exact List.mem_cons_of_mem q h
    · rw [if_neg hk, List.mem_cons] at h
      rcases h with h | h
      · exact h ▸ List.mem_cons_self q rest
      · exact List.mem_cons_of_mem q (ih h)

theorem keys_mapDelete_sublist (m : TaskMap) (k : String) :
    ((mapDelete m k).map Prod.fst).Sublist (m.map Prod.fst) := by
  induction m with
  | nil => simp [mapDelete]
  | cons q rest ih =>
    rw [mapDelete]
    by_cases hk : q.1 = k
    · rw [if_pos hk]
      exact (List.sublist_cons_self q.1 (rest.map Prod.fst)).trans (List.Sublist.refl _) |>.trans
        (by simp)
    · rw [if_neg hk]
      simpa using ih

theorem mapGet_mapDelete_self {m : TaskMap} (k : String)
    (hnd : (m.map Prod.fst).Nodup) : mapGet (mapDelete m k) k = none := by
  induction m with
  | nil => rfl
  | cons q rest ih =>
    simp only [List.map_cons, List.nodup_cons] at hnd
    rw [mapDelete]
    by_cases hk : q.1 = k
    · rw [if_pos hk]
      exact mapGet_eq_none_of_not_mem (hk ▸ hnd.1)
    · rw [if_neg hk, mapGet, if_neg hk]
      exact ih hnd.2

/-!
### The store invariant
-/

theorem wf_resetTasks : WF resetTasks := by
  refine ⟨le_refl 1, ?_, ?_, ?_⟩ <;> simp [resetTasks]

/-- The id about to be allocated is not a key of the current map. -/
theorem wf_fresh {s : StoreState} (h : WF s) :
    toString s.nextTaskId ∉ s.tasks.map Prod.fst := by
  intro hmem
  obtain ⟨p, hp, hpk⟩ := List.mem_map.mp hmem
  obtain ⟨m, _, hm2, hm3⟩ := h.2.2.2 p hp
  rw [hm3, toString_nat_eq_repr] at hpk
  have := natRepr_injective hpk
  omega

theorem createTask_success {s : StoreState} {body : BodyInput}
    (ht : body.title.truthy = true) (hs : body.title.isString = true) :
    createTask s body =
      ({ nextTaskId := s.nextTaskId + 1,
         tasks := mapSet s.tasks (toString s.nextTaskId)
           { id := toString s.nextTaskId, title := body.title.asString,
             description := if body.description.truthy then body.description
              else JVal.vstr "" } },
       ⟨201, .task
           { id := toString s.nextTaskId, title := body.title.asString,
             description := if body.description.truthy then body.description
              else JVal.vstr "" }⟩) := by
  simp [createTask, ht, hs]

theorem createTask_failure {s : StoreState} {body : BodyInput}
    (h : body.title.truthy = false ∨ body.title.isString = false) :
    createTask s body = (s, ⟨400, .error "Field \"title\" is required"⟩) := by
  rcases h with h | h <;> simp [createTask, h]

theorem title_invalid_cases {body : BodyInput}
    (hc : ¬ (body.title.truthy = true ∧ body.title.isString = true)) :
    body.title.truthy = false ∨ body.title.isString = false := by
  cases h1 : body.title.truthy with
  | false => exact Or.inl rfl
  | true =>
    cases h2 : body.title.isString with
    | false => exact Or.inr rfl
    | true => exact absurd ⟨h1, h2⟩ hc

theorem createTask_status_iff {s : StoreState} {body : BodyInput} :
    (createTask s body).2.status = 201 ↔
      (body.title.truthy = true ∧ body.title.isString = true) := by
  constructor
  · intro h
    by_contra hc
    rw [createTask_failure (title_invalid_cases hc)] at h
    simp at h
  · intro h
    rw [createTask_success h.1 h.2]

theorem wf_createTask {s : StoreState} (h : WF s) (body : BodyInput) :
    WF (createTask s body).1 := by
  by_cases hc : body.title.truthy = true ∧ body.title.isString = true
  · rw [createTask_success hc.1 hc.2]
    have hfresh := wf_fresh h
    dsimp only
    rw [mapSet_eq_append_of_not_mem _ hfresh]
    have hn1 := h.1
    refine ⟨by dsimp only; omega, ?_, ?_, ?_⟩
    · simp only [List.map_append, List.map_cons, List.map_nil]
      rw [List.nodup_append]
      refine ⟨h.2.1, List.nodup_singleton _, ?_⟩
      intro a ha hb
      simp only [List.mem_singleton] at hb
      exact hfresh (hb ▸ ha)
    · intro p hp
      rcases List.mem_append.mp hp with hp | hp
      · exact h.2.2.1 p hp
      · simp only [List.mem_singleton] at hp
        rw [hp]
    · intro p hp
      rcases List.mem_append.mp hp with hp | hp
      · obtain ⟨m, hm1, hm2, hm3⟩ := h.2.2.2 p hp
        exact ⟨m, hm1, by dsimp only; omega, hm3⟩
      · simp only [List.mem_singleton] at hp
        exact ⟨s.nextTaskId, h.1, by dsimp only; omega, by rw [hp, toString_nat_eq_repr]⟩
  · rw [createTask_failure (title_invalid_cases hc)]
    exact h

theorem updateTask_not_found {s : StoreState} {id : String} (body : BodyInput)
    (h : mapGet s.tasks id = none) :
    updateTask s id body = (s, ⟨404, .error "Task not found"⟩) := by
  simp [updateTask, h]

theorem updateTask_title_invalid {s : StoreState} {id : String} {body : BodyInput}
    {task : Task} (h : mapGet s.tasks id = some task)
    (ht : body.title ≠ JVal.undef ∧ ¬ body.title.isString) :
    updateTask s id body = (s, ⟨400, .error "Field \"title\" must be a string"⟩) := by
  simp only [updateTask, h, if_pos ht]

theorem updateTask_descr_invalid {s : StoreState} {id : String} {body : BodyInput}
    {task : Task} (h : mapGet s.tasks id = some task)
    (ht : ¬ (body.title ≠ JVal.undef ∧ ¬ body.title.isString))
    (hd : body.description ≠ JVal.undef ∧ ¬ body.description.isString) :
    updateTask s id body = (s, ⟨400, .error "Field \"description\" must be a string"⟩) := by
  simp only [updateTask, h, if_neg ht, if_pos hd]

theorem updateTask_success {s : StoreState} {id : String} {body : BodyInput}
    {task : Task} (h : mapGet s.tasks id = some task)
    (ht : ¬ (body.title ≠ JVal.undef ∧ ¬ body.title.isString))
    (hd : ¬ (body.description ≠ JVal.undef ∧ ¬ body.description.isString)) :
    updateTask s id body =
      ({ nextTaskId := s.nextTaskId,
         tasks := mapSet s.tasks task.id
           { id := task.id
             title := if body.title ≠ JVal.undef then body.title.asString else task.title
             description := if body.description ≠ JVal.undef then body.description
              else task.description } },
       ⟨200, .task
           { id := task.id
             title := if body.title ≠ JVal.undef then body.title.asString else task.title
             description := if body.description ≠ JVal.undef then body.description
              else task.description }⟩) := by
  simp only [updateTask, h, if_neg ht, if_neg hd]

theorem wf_updateTask {s : StoreState} (h : WF s) (id : String) (body : BodyInput) :
    WF (updateTask s id body).1 := by
  cases hg : mapGet s.tasks id with
  | none => rw [updateTask_not_found body hg]; exact h
  | some task =>
    by_cases h1 : body.title ≠ JVal.undef ∧ ¬ body.title.isString
    · rw [updateTask_title_invalid hg h1]; exact h
    · by_cases h2 : body.description ≠ JVal.undef ∧ ¬ body.description.isString
      · rw [updateTask_descr_invalid hg h1 h2]; exact h
      · rw [updateTask_success hg h1 h2]
        have hmem := mapGet_mem hg
        have hid : task.id = id := h.2.2.1 (id, task) hmem
        have hkey : task.id ∈ s.tasks.map Prod.fst := by
          rw [hid]
          exact List.mem_map_of_mem Prod.fst hmem
        refine ⟨h.1, ?_, ?_, ?_⟩
        · rw [keys_mapSet_of_mem _ hkey]
          exact h.2.1
        · intro p hp
          rcases mem_mapSet hp with hp | hp
          · rw [hp]
          · exact h.2.2.1 p hp
        · intro p hp
          rcases mem_mapSet hp with hp | hp
          · obtain ⟨m, hm1, hm2, hm3⟩ := h.2.2.2 (id, task) hmem
            exact ⟨m, hm1, hm2, by rw [hp]; simpa [hid] using hm3⟩
          · exact h.2.2.2 p hp

theorem deleteTask_not_found {s : StoreState} {id : String}
    (h : mapGet s.tasks id = none) :
    deleteTask s id = (s, ⟨404, .error "Task not found"⟩) := by
  simp [deleteTask, h]

theorem deleteTask_found {s : StoreState} {id : String} {task : Task}
    (h : mapGet s.tasks id = some task) :
    deleteTask s id =
      ({ nextTaskId := s.nextTaskId, tasks := mapDelete s.tasks id }, ⟨204, .empty⟩) := by
  simp [deleteTask, h]

theorem wf_deleteTask {s : StoreState} (h : WF s) (id : String) :
    WF (deleteTask s id).1 := by
  cases hg : mapGet s.tasks id with
  | none => rw [deleteTask_not_found hg]; exact h
  | some task =>
    rw [deleteTask_found hg]
    refine ⟨h.1, (keys_mapDelete_sublist s.tasks id).nodup h.2.1, ?_, ?_⟩
    · intro p hp
      exact h.2.2.1 p (mem_mapDelete hp)
    · intro p hp
      exact h.2.2.2 p (mem_mapDelete hp)

theorem getTask_state (s : StoreState) (id : String) : (getTask s id).1 = s := by
  cases hg : mapGet s.tasks id <;> simp [getTask, hg]

theorem wf_step {s : StoreState} (h : WF s) (op : Op) : WF (step s op).1 := by
  cases op with
  | create body => exact wf_createTask h body
  | get id => rw [step, getTask_state]; exact h
  | list => exact h
  | update id body => exact wf_updateTask h id body
  | del id => exact wf_deleteTask h id
  | reset => exact wf_resetTasks

theorem wf_run {s : StoreState} (h : WF s) (ops : List Op) : WF (run s ops) := by
  induction ops generalizing s with
  | nil => exact h
  | cons op rest ih => exact ih (wf_step h op)

theorem wf_of_reachable {s : StoreState} (h : Reachable s) : WF s := by
  obtain ⟨ops, rfl⟩ := h
  exact wf_run wf_resetTasks ops

/-!
### What is true of stored descriptions
-/

theorem descrOk_resetTasks : DescrOk resetTasks := by
  intro p hp
  simp [resetTasks] at hp

theorem descrOk_val (v : JVal) :
    (if v.truthy then v else JVal.vstr "") ≠ JVal.undef ∧
      ((if v.truthy then v else JVal.vstr "").truthy = true ∨
        (if v.truthy then v else JVal.vstr "") = JVal.vstr "") := by
  by_cases hv : v.truthy
  · rw [if_pos hv]
    refine ⟨?_, Or.inl hv⟩
    intro h
    rw [h] at hv
    simp [JVal.truthy] at hv
  · rw [if_neg hv]
    exact ⟨by simp, Or.inr rfl⟩

theorem descrOk_vstr (str : String) :
    (JVal.vstr str : JVal) ≠ JVal.undef ∧
      ((JVal.vstr str).truthy = true ∨ (JVal.vstr str : JVal) = JVal.vstr "") := by
  refine ⟨by simp, ?_⟩
  by_cases hs : str = ""
  · exact Or.inr (by rw [hs])
  · exact Or.inl (by simp [JVal.truthy, hs])

theorem descrOk_step {s : StoreState} (h : DescrOk s) (op : Op) :
    DescrOk (step s op).1 := by
  cases op with
  | create body =>
    by_cases hc : body.title.truthy = true ∧ body.title.isString = true
    · rw [step, createTask_success hc.1 hc.2]
      intro p hp
      rcases mem_mapSet hp with hp | hp
      · rw [hp]
        exact descrOk_val body.description
      · exact h p hp
    · rw [step, createTask_failure (title_invalid_cases hc)]
      exact h
  | get id =>
    rw [step, getTask_state]
    exact h
  | list => exact h
  | update id body =>
    cases hg : mapGet s.tasks id with
    | none =>
      rw [step, updateTask_not_found body hg]
      exact h
    | some task =>
      by_cases h1 : body.title ≠ JVal.undef ∧ ¬ body.title.isString
      · rw [step, updateTask_title_invalid hg h1]
        exact h
      · by_cases h2 : body.description ≠ JVal.undef ∧ ¬ body.description.isString
        · rw [step, updateTask_descr_invalid hg h1 h2]
          exact h
        · rw [step, updateTask_success hg h1 h2]
          intro p hp
          rcases mem_mapSet hp with hp | hp
          · rw [hp]
            by_cases hd : body.description ≠ JVal.undef
            · dsimp only
              rw [if_pos hd]
              have hds : body.description.isString = true := by
                by_contra hds
                exact h2 ⟨hd, hds⟩
              cases hb : body.description with
              | vstr str => exact descrOk_vstr str
              | _ => rw [hb] at hds; simp [JVal.isString] at hds
            · dsimp only
              rw [if_neg hd]
              exact h (id, task) (mapGet_mem hg)
          · exact h p hp
  | del id =>
    cases hg : mapGet s.tasks id with
    | none =>
      rw [step, deleteTask_not_found hg]
      exact h
    | some task =>
      rw [step, deleteTask_found hg]
      intro p hp
      exact h p (mem_mapDelete hp)
  | reset => exact descrOk_resetTasks

theorem descrOk_run {s : StoreState} (h : DescrOk s) (ops : List Op) :
    DescrOk (run s ops) := by
  induction ops generalizing s with
  | nil => exact h
  | cons op rest ih => exact ih (descrOk_step h op)

theorem descrOk_of_reachable {s : StoreState} (h : Reachable s) : DescrOk s := by
  obtain ⟨ops, rfl⟩ := h
  exact descrOk_run descrOk_resetTasks ops

/-! ### The counter only moves forward (absent a reset) -/

theorem updateTask_nextTaskId (s : StoreState) (id : String) (body : BodyInput) :
    (updateTask s id body).1.nextTaskId = s.nextTaskId := by
  cases hg : mapGet s.tasks id with
  | none => rw [updateTask_not_found body hg]
  | some task =>
    by_cases h1 : body.title ≠ JVal.undef ∧ ¬ body.title.isString
    · rw [updateTask_title_invalid hg h1]
    · by_cases h2 : body.description ≠ JVal.undef ∧ ¬ body.description.isString
      · rw [updateTask_descr_invalid hg h1 h2]
      · rw [updateTask_success hg h1 h2]

theorem deleteTask_nextTaskId (s : StoreState) (id : String) :
    (deleteTask s id).1.nextTaskId = s.nextTaskId := by
  cases hg : mapGet s.tasks id with
  | none => rw [deleteTask_not_found hg]
  | some task => rw [deleteTask_found hg]

theorem step_nextTaskId_mono {s : StoreState} {op : Op} (h : op ≠ Op.reset) :
    s.nextTaskId ≤ (step s op).1.nextTaskId := by
  cases op with
  | create body =>
    by_cases hc : body.title.truthy = true ∧ body.title.isString = true
    · rw [step, createTask_success hc.1 hc.2]
      dsimp only
      omega
    · rw [step, createTask_failure (title_invalid_cases hc)]
  | get id => rw [step, getTask_state]
  | list => exact le_refl _
  | update id body => rw [step, updateTask_nextTaskId]
  | del id => rw [step, deleteTask_nextTaskId]
  | reset => exact absurd rfl h

/-! ### Every id handed out by a successful create is fresh -/

theorem respCreatedId_201 (t : Task) :
    respCreatedId ⟨201, RespBody.task t⟩ = [t.id] := by
  simp [respCreatedId]

theorem respCreatedId_of_ne {r : HttpResponse} (h : r.status ≠ 201) :
    respCreatedId r = [] := by
  simp [respCreatedId, h]

theorem createdIds_bound {ops : List Op} :
    ∀ {s : StoreState}, Op.reset ∉ ops →
      ∀ i ∈ createdIds s ops, ∃ m : Nat, s.nextTaskId ≤ m ∧ i = Nat.repr m := by
  induction ops with
  | nil =>
    intro s _ i hi
    simp [createdIds] at hi
  | cons op rest ih =>
    intro s hnr i hi
    have hop : op ≠ Op.reset := fun he => hnr (he ▸ List.mem_cons_self op rest)
    have hrest : Op.reset ∉ rest := fun hr => hnr (List.mem_cons_of_mem op hr)
    have hmono := step_nextTaskId_mono (s := s) hop
    have htail : ∀ i ∈ createdIds (step s op).1 rest,
        ∃ m : Nat, s.nextTaskId ≤ m ∧ i = Nat.repr m := by
      intro j hj
      obtain ⟨m, hm1, hm2⟩ := ih hrest j hj
      exact ⟨m, le_trans hmono hm1, hm2⟩
    cases op with
    | create body =>
      simp only [createdIds] at hi
      rcases List.mem_append.mp hi with hi | hi
      · by_cases hc : body.title.truthy = true ∧ body.title.isString = true
        · rw [step, createTask_success hc.1 hc.2] at hi
          rw [respCreatedId_201, List.mem_singleton] at hi
          exact ⟨s.nextTaskId, le_refl _, by rw [hi, toString_nat_eq_repr]⟩
        · rw [step, createTask_failure (title_invalid_cases hc)] at hi
          rw [respCreatedId_of_ne (by norm_num)] at hi
          simp at hi
      · exact htail i hi
    | get id =>
      simp only [createdIds, List.nil_append] at hi
      exact htail i hi
    | list =>
      simp only [createdIds, List.nil_append] at hi
      exact htail i hi
    | update id body =>
      simp only [createdIds, List.nil_append] at hi
      exact htail i hi
    | del id =>
      simp only [createdIds, List.nil_append] at hi
      exact htail i hi
    | reset => exact absurd rfl hop

theorem createdIds_nodup {ops : List Op} :
    ∀ {s : StoreState}, Op.reset ∉ ops → (createdIds s ops).Nodup := by
  induction ops with
  | nil =>
    intro s _
    simp [createdIds]
  | cons op rest ih =>
    intro s hnr
    have hop : op ≠ Op.reset := fun he => hnr (he ▸ List.mem_cons_self op rest)
    have hrest : Op.reset ∉ rest := fun hr => hnr (List.mem_cons_of_mem op hr)
    cases op with
    | create body =>
      simp only [createdIds]
      by_cases hc : body.title.truthy = true ∧ body.title.isString = true
      · rw [step, createTask_success hc.1 hc.2]
        rw [respCreatedId_201, List.singleton_append]
        refine List.nodup_cons.mpr ⟨?_, ih hrest⟩
        intro hmem
        obtain ⟨m, hm1, hm2⟩ := createdIds_bound hrest _ hmem
        rw [toString_nat_eq_repr] at hm2
        have := natRepr_injective hm2
        dsimp only at hm1
        omega
      · rw [step, createTask_failure (title_invalid_cases hc)]
        rw [respCreatedId_of_ne (by norm_num), List.nil_append]
        exact ih hrest
    | get id =>
      simp only [createdIds, List.nil_append]
      exact ih hrest
    | list =>
      simp only [createdIds, List.nil_append]
      exact ih hrest
    | update id body =>
      simp only [createdIds, List.nil_append]
      exact ih hrest
    | del id =>
      simp only [createdIds, List.nil_append]
      exact ih hrest
    | reset => exact absurd rfl hop

/-! ### Listing the stored tasks -/

theorem keys_eq_values_map_id {m : TaskMap} (hid : ∀ p ∈ m, p.2.id = p.1) :
    (m.map Prod.snd).map Task.id = m.map Prod.fst := by
  rw [List.map_map]
  exact List.map_congr_left (fun p hp => hid p hp)

theorem values_nodup {s : StoreState} (h : WF s) : (s.tasks.map Prod.snd).Nodup := by
  have hnd : ((s.tasks.map Prod.snd).map Task.id).Nodup := by
    rw [keys_eq_values_map_id h.2.2.1]
    exact h.2.1
  exact hnd.of_map

theorem mem_values_iff {s : StoreState} (h : WF s) (t : Task) :
    t ∈ s.tasks.map Prod.snd ↔ mapGet s.tasks t.id = some t := by
  constructor
  · intro ht
    obtain ⟨p, hp, hpt⟩ := List.mem_map.mp ht
    obtain ⟨k, u⟩ := p
    cases hpt
    have hid := h.2.2.1 (k, u) hp
    dsimp only at hid
    rw [hid]
    exact mapGet_of_mem h.2.1 (hid ▸ hp)
  · intro ht
    exact List.mem_map_of_mem Prod.snd (mapGet_mem ht)

theorem getTask_not_found {s : StoreState} {id : String}
    (h : mapGet s.tasks id = none) :
    getTask s id = (s, ⟨404, RespBody.error "Task not found"⟩) := by
  simp [getTask, h]

theorem getTask_found {s : StoreState} {id : String} {t : Task}
    (h : mapGet s.tasks id = some t) :
    getTask s id = (s, ⟨200, RespBody.task t⟩) := by
  simp [getTask, h]

/-!
## The claims
-/

/-- Claim C1: the counter starts at 1 after a reset; along any reset-free
operation sequence the ids returned by successful creates are pairwise
distinct; a successful create returns the stringified current counter as
its id (an id that is not yet a key of the store) and advances the counter
by exactly one; a failed create leaves the whole state untouched. -/
theorem claim_C1 (s : StoreState) (hs : Reachable s) (ops : List Op)
    (hnr : Op.reset ∉ ops) (body : BodyInput) :
    resetTasks.nextTaskId = 1 ∧
    (createdIds s ops).Nodup ∧
    ((createTask s body).2.status = 201 →
      (∃ t : Task, (createTask s body).2.body = RespBody.task t ∧
        t.id = toString s.nextTaskId ∧ mapGet s.tasks t.id = none) ∧
      (createTask s body).1.nextTaskId = s.nextTaskId + 1) ∧
    ((createTask s body).2.status ≠ 201 → (createTask s body).1 = s) := by
  have hwf := wf_of_reachable hs
  refine ⟨rfl, createdIds_nodup hnr, ?_, ?_⟩
  · intro h201
    obtain ⟨ht, hsz⟩ := createTask_status_iff.mp h201
    rw [createTask_success ht hsz]
    exact ⟨⟨_, rfl, rfl, mapGet_eq_none_of_not_mem (wf_fresh hwf)⟩, rfl⟩
  · intro hne
    by_cases hc : body.title.truthy = true ∧ body.title.isString = true
    · exact absurd (createTask_status_iff.mpr hc) hne
    · rw [createTask_failure (title_invalid_cases hc)]

/-- Witness for C1: the reset state, a two-creates sequence (the second
with an invalid title), and a concrete valid create. -/
theorem claim_C1_witness :
    Reachable resetTasks ∧
    Op.reset ∉ [Op.create ⟨JVal.vstr "a", JVal.undef⟩,
      Op.create ⟨JVal.vnum 5, JVal.undef⟩, Op.create ⟨JVal.vstr "b", JVal.undef⟩] ∧
    (resetTasks.nextTaskId = 1 ∧
      (createdIds resetTasks [Op.create ⟨JVal.vstr "a", JVal.undef⟩,
        Op.create ⟨JVal.vnum 5, JVal.undef⟩, Op.create ⟨JVal.vstr "b", JVal.undef⟩]).Nodup ∧
      ((createTask resetTasks ⟨JVal.vstr "c", JVal.undef⟩).2.status = 201 →
        (∃ t : Task,
          (createTask resetTasks ⟨JVal.vstr "c", JVal.undef⟩).2.body = RespBody.task t ∧
          t.id = toString resetTasks.nextTaskId ∧
          mapGet resetTasks.tasks t.id = none) ∧
        (createTask resetTasks ⟨JVal.vstr "c", JVal.undef⟩).1.nextTaskId =
          resetTasks.nextTaskId + 1) ∧
      ((createTask resetTasks ⟨JVal.vstr "c", JVal.undef⟩).2.status ≠ 201 →
        (createTask resetTasks ⟨JVal.vstr "c", JVal.undef⟩).1 = resetTasks)) :=
  ⟨⟨[], rfl⟩, by decide,
    claim_C1 resetTasks ⟨[], rfl⟩ _ (by decide) ⟨JVal.vstr "c", JVal.undef⟩⟩

/-- Claim C2: create answers 400 with `Field "title" is required` exactly
when the title is missing, falsy or not a string; otherwise it answers 201
and the returned record is the one found in the store afterwards. -/
theorem claim_C2 (s : StoreState) (body : BodyInput) :
    ((createTask s body).2 = ⟨400, RespBody.error "Field \"title\" is required"⟩ ↔
      (body.title.truthy = false ∨ body.title.isString = false)) ∧
    (¬ (body.title.truthy = false ∨ body.title.isString = false) →
      ∃ t : Task, (createTask s body).2 = ⟨201, RespBody.task t⟩ ∧
        mapGet (createTask s body).1.tasks t.id = some t) := by
  constructor
  · constructor
    · intro h
      by_cases hc : body.title.truthy = true ∧ body.title.isString = true
      · rw [createTask_success hc.1 hc.2] at h
        simp at h
      · exact title_invalid_cases hc
    · intro h
      rw [createTask_failure h]
  · intro h
    have hc : body.title.truthy = true ∧ body.title.isString = true := by
      by_contra hcc
      exact h (title_invalid_cases hcc)
    rw [createTask_success hc.1 hc.2]
    exact ⟨_, rfl, mapGet_mapSet_self _ _ _⟩

/-- Witness for C2: the empty body fails with the required-title error,
and a valid body is stored and returned. -/
theorem claim_C2_witness :
    (((createTask resetTasks ⟨JVal.undef, JVal.undef⟩).2 =
        ⟨400, RespBody.error "Field \"title\" is required"⟩ ↔
      ((JVal.undef : JVal).truthy = false ∨ (JVal.undef : JVal).isString = false)) ∧
    (¬ ((JVal.undef : JVal).truthy = false ∨ (JVal.undef : JVal).isString = false) →
      ∃ t : Task,
        (createTask resetTasks ⟨JVal.undef, JVal.undef⟩).2 = ⟨201, RespBody.task t⟩ ∧
        mapGet (createTask resetTasks ⟨JVal.undef, JVal.undef⟩).1.tasks t.id = some t)) :=
  claim_C2 resetTasks ⟨JVal.undef, JVal.undef⟩

/-- Claim C3: updating an id that is not in the store answers 404 whatever
the patch is — the existence check runs before patch validation, so an
invalid patch against a missing id never yields a 400. -/
theorem claim_C3 (s : StoreState) (id : String) (body : BodyInput)
    (h : mapGet s.tasks id = none) :
    updateTask s id body = (s, ⟨404, RespBody.error "Task not found"⟩) :=
  updateTask_not_found body h

/-- Witness for C3: a non-string-title, non-string-description patch
against the empty store still gives 404. -/
theorem claim_C3_witness :
    mapGet resetTasks.tasks "1" = none ∧
    updateTask resetTasks "1" ⟨JVal.vnum 3, JVal.vnum 4⟩ =
      (resetTasks, ⟨404, RespBody.error "Task not found"⟩) :=
  ⟨by decide, claim_C3 resetTasks "1" ⟨JVal.vnum 3, JVal.vnum 4⟩ (by decide)⟩

/-- Claim C4: for an existing id, a present non-string title gives 400
with the title message (checked first, even when the description is also
invalid); otherwise a present non-string description gives 400 with the
description message; otherwise the update answers 200. -/
theorem claim_C4 (s : StoreState) (id : String) (t : Task) (body : BodyInput)
    (h : mapGet s.tasks id = some t) :
    ((body.title ≠ JVal.undef ∧ ¬ body.title.isString) →
      updateTask s id body =
        (s, ⟨400, RespBody.error "Field \"title\" must be a string"⟩)) ∧
    (¬ (body.title ≠ JVal.undef ∧ ¬ body.title.isString) →
      (body.description ≠ JVal.undef ∧ ¬ body.description.isString) →
      updateTask s id body =
        (s, ⟨400, RespBody.error "Field \"description\" must be a string"⟩)) ∧
    (¬ (body.title ≠ JVal.undef ∧ ¬ body.title.isString) →
      ¬ (body.description ≠ JVal.undef ∧ ¬ body.description.isString) →
      (updateTask s id body).2.status = 200) := by
  refine ⟨fun h1 => updateTask_title_invalid h h1,
    fun h1 h2 => updateTask_descr_invalid h h1 h2,
    fun h1 h2 => ?_⟩
  rw [updateTask_success h h1 h2]

/-- Witness for C4: after creating task "1", the patch `{title: 123,
description: 99}` hits the title check first. -/
theorem claim_C4_witness :
    mapGet (createTask resetTasks ⟨JVal.vstr "a", JVal.undef⟩).1.tasks "1" =
      some ⟨"1", "a", JVal.vstr ""⟩ ∧
    (((JVal.vnum 123 : JVal) ≠ JVal.undef ∧ ¬ (JVal.vnum 123 : JVal).isString) →
      updateTask (createTask resetTasks ⟨JVal.vstr "a", JVal.undef⟩).1 "1"
          ⟨JVal.vnum 123, JVal.vnum 99⟩ =
        ((createTask resetTasks ⟨JVal.vstr "a", JVal.undef⟩).1,
          ⟨400, RespBody.error "Field \"title\" must be a string"⟩)) :=
  ⟨by decide,
    (claim_C4 (createTask resetTasks ⟨JVal.vstr "a", JVal.undef⟩).1 "1"
      ⟨"1", "a", JVal.vstr ""⟩ ⟨JVal.vnum 123, JVal.vnum 99⟩ (by decide)).1⟩

/-- Counterexample to C5 as stated: a single create with a valid title and
the numeric description `7` reaches a store whose only task has a
non-string description. -/
theorem claim_C5_counterexample :
    ¬ (∀ p ∈ (run resetTasks [Op.create ⟨JVal.vstr "a", JVal.vnum 7⟩]).tasks,
        p.2.description.isString = true) := by
  decide

/-- Claim C5 (amended): after any sequence of operations every stored
task's description is never absent/undefined — it is either truthy or the
empty string — but it is not necessarily a string: a truthy non-string
description supplied at creation is stored as is. -/
theorem claim_C5_amended (s : StoreState) (h : Reachable s) :
    ∀ p ∈ s.tasks, p.2.description ≠ JVal.undef ∧
      (p.2.description.truthy = true ∨ p.2.description = JVal.vstr "") :=
  descrOk_of_reachable h

/-- Witness for the amended C5 at the state reached by one create with a
numeric description. -/
theorem claim_C5_witness :
    Reachable (run resetTasks [Op.create ⟨JVal.vstr "a", JVal.vnum 7⟩]) ∧
    ∀ p ∈ (run resetTasks [Op.create ⟨JVal.vstr "a", JVal.vnum 7⟩]).tasks,
      p.2.description ≠ JVal.undef ∧
        (p.2.description.truthy = true ∨ p.2.description = JVal.vstr "") :=
  ⟨⟨[Op.create ⟨JVal.vstr "a", JVal.vnum 7⟩], rfl⟩,
    claim_C5_amended _ ⟨[Op.create ⟨JVal.vstr "a", JVal.vnum 7⟩], rfl⟩⟩

/-- Claim C6: create never fails because of the description — any body
with a valid title yields 201 whatever the description is — and when the
description is omitted the created record stores the empty string. -/
theorem claim_C6 (s : StoreState) (body : BodyInput)
    (ht : body.title.truthy = true) (hts : body.title.isString = true) :
    (createTask s body).2.status = 201 ∧
    (body.description = JVal.undef →
      (createTask s body).2.body =
        RespBody.task ⟨toString s.nextTaskId, body.title.asString, JVal.vstr ""⟩) := by
  rw [createTask_success ht hts]
  refine ⟨rfl, fun hd => ?_⟩
  rw [hd]
  simp [JVal.truthy]

/-- Witness for C6: `{title: "a"}` with no description yields 201 and
`description: ""`. -/
theorem claim_C6_witness :
    (JVal.vstr "a" : JVal).truthy = true ∧ (JVal.vstr "a" : JVal).isString = true ∧
    ((createTask resetTasks ⟨JVal.vstr "a", JVal.undef⟩).2.status = 201 ∧
      ((JVal.undef : JVal) = JVal.undef →
        (createTask resetTasks ⟨JVal.vstr "a", JVal.undef⟩).2.body =
          RespBody.task ⟨toString resetTasks.nextTaskId, (JVal.vstr "a" : JVal).asString,
            JVal.vstr ""⟩)) :=
  ⟨by decide, by decide,
    claim_C6 resetTasks ⟨JVal.vstr "a", JVal.undef⟩ (by decide) (by decide)⟩

/-- Claim C7: a valid update of an existing task changes exactly the
patched fields: an absent field keeps its old value, a present one takes
the patch value, the id is never altered, and an empty patch gives 200
with the record unchanged. -/
theorem claim_C7 (s : StoreState) (id : String) (t : Task) (body : BodyInput)
    (h : mapGet s.tasks id = some t)
    (ht : body.title = JVal.undef ∨ body.title.isString = true)
    (hd : body.description = JVal.undef ∨ body.description.isString = true) :
    ∃ u : Task, (updateTask s id body).2 = ⟨200, RespBody.task u⟩ ∧
      u.id = t.id ∧
      (body.title = JVal.undef → u.title = t.title) ∧
      (body.title ≠ JVal.undef → u.title = body.title.asString) ∧
      (body.description = JVal.undef → u.description = t.description) ∧
      (body.description ≠ JVal.undef → u.description = body.description) ∧
      (body.title = JVal.undef → body.description = JVal.undef → u = t) := by
  have h1 : ¬ (body.title ≠ JVal.undef ∧ ¬ body.title.isString) := by
    rcases ht with ht | ht
    · exact fun hc => hc.1 ht
    · exact fun hc => hc.2 ht
  have h2 : ¬ (body.description ≠ JVal.undef ∧ ¬ body.description.isString) := by
    rcases hd with hd | hd
    · exact fun hc => hc.1 hd
    · exact fun hc => hc.2 hd
  rw [updateTask_success h h1 h2]
  refine ⟨_, rfl, rfl, ?_, ?_, ?_, ?_, ?_⟩
  · intro hu
    dsimp only
    rw [if_neg (fun hne => hne hu)]
  · intro hu
    dsimp only
    rw [if_pos hu]
  · intro hu
    dsimp only
    rw [if_neg (fun hne => hne hu)]
  · intro hu
    dsimp only
    rw [if_pos hu]
  · intro hu1 hu2
    rw [if_neg (fun hne => hne hu1), if_neg (fun hne => hne hu2)]

/-- Witness for C7: an empty patch against the task created first leaves
the record unchanged. -/
theorem claim_C7_witness :
    mapGet (createTask resetTasks ⟨JVal.vstr "a", JVal.undef⟩).1.tasks "1" =
      some ⟨"1", "a", JVal.vstr ""⟩ ∧
    ((JVal.undef : JVal) = JVal.undef ∨ (JVal.undef : JVal).isString = true) ∧
    ∃ u : Task,
      (updateTask (createTask resetTasks ⟨JVal.vstr "a", JVal.undef⟩).1 "1"
        ⟨JVal.undef, JVal.undef⟩).2 = ⟨200, RespBody.task u⟩ ∧
      u.id = (⟨"1", "a", JVal.vstr ""⟩ : Task).id ∧
      ((JVal.undef : JVal) = JVal.undef → u.title = (⟨"1", "a", JVal.vstr ""⟩ : Task).title) ∧
      ((JVal.undef : JVal) ≠ JVal.undef → u.title = (JVal.undef : JVal).asString) ∧
      ((JVal.undef : JVal) = JVal.undef →
        u.description = (⟨"1", "a", JVal.vstr ""⟩ : Task).description) ∧
      ((JVal.undef : JVal) ≠ JVal.undef → u.description = JVal.undef) ∧
      ((JVal.undef : JVal) = JVal.undef → (JVal.undef : JVal) = JVal.undef →
        u = ⟨"1", "a", JVal.vstr ""⟩) :=
  ⟨by decide, Or.inl rfl,
    claim_C7 (createTask resetTasks ⟨JVal.vstr "a", JVal.undef⟩).1 "1"
      ⟨"1", "a", JVal.vstr ""⟩ ⟨JVal.undef, JVal.undef⟩ (by decide)
      (Or.inl rfl) (Or.inl rfl)⟩

/-- Claim C8: deleting an existing id answers 204 with no body and removes
the record, so a following get on that id answers 404; deleting a missing
id answers 404. -/
theorem claim_C8 (s : StoreState) (id : String) (hs : Reachable s) :
    (∀ t : Task, mapGet s.tasks id = some t →
      (deleteTask s id).2 = ⟨204, RespBody.empty⟩ ∧
      (getTask (deleteTask s id).1 id).2 = ⟨404, RespBody.error "Task not found"⟩) ∧
    (mapGet s.tasks id = none →
      (deleteTask s id).2 = ⟨404, RespBody.error "Task not found"⟩) := by
  have hwf := wf_of_reachable hs
  constructor
  · intro t hgt
    rw [deleteTask_found hgt]
    refine ⟨rfl, ?_⟩
    rw [getTask_not_found (mapGet_mapDelete_self id hwf.2.1)]
  · intro hgn
    rw [deleteTask_not_found hgn]

/-- Witness for C8 at the state holding exactly task "1". -/
theorem claim_C8_witness :
    Reachable (run resetTasks [Op.create ⟨JVal.vstr "a", JVal.undef⟩]) ∧
    ((∀ t : Task,
      mapGet (run resetTasks [Op.create ⟨JVal.vstr "a", JVal.undef⟩]).tasks "1" = some t →
      (deleteTask (run resetTasks [Op.create ⟨JVal.vstr "a", JVal.undef⟩]) "1").2 =
        ⟨204, RespBody.empty⟩ ∧
      (getTask (deleteTask (run resetTasks [Op.create ⟨JVal.vstr "a", JVal.undef⟩]) "1").1
          "1").2 = ⟨404, RespBody.error "Task not found"⟩) ∧
    (mapGet (run resetTasks [Op.create ⟨JVal.vstr "a", JVal.undef⟩]).tasks "1" = none →
      (deleteTask (run resetTasks [Op.create ⟨JVal.vstr "a", JVal.undef⟩]) "1").2 =
        ⟨404, RespBody.error "Task not found"⟩)) :=
  ⟨⟨[Op.create ⟨JVal.vstr "a", JVal.undef⟩], rfl⟩,
    claim_C8 _ "1" ⟨[Op.create ⟨JVal.vstr "a", JVal.undef⟩], rfl⟩⟩

/-- Claim C9: list does not modify the store, returns every stored task
exactly once (no duplicates, membership exactly the stored records, the
empty list for the empty store), and a repeated list without intervening
writes returns the identical result. -/
theorem claim_C9 (s : StoreState) (hs : Reachable s) :
    (listTasks s).1 = s ∧
    (∃ ts : List Task, (listTasks s).2 = ⟨200, RespBody.taskList ts⟩ ∧
      ts.Nodup ∧
      (∀ t : Task, t ∈ ts ↔ mapGet s.tasks t.id = some t) ∧
      (s.tasks = [] → ts = [])) ∧
    listTasks (listTasks s).1 = listTasks s := by
  have hwf := wf_of_reachable hs
  refine ⟨rfl, ⟨s.tasks.map Prod.snd, rfl, values_nodup hwf, mem_values_iff hwf, ?_⟩, rfl⟩
  intro he
  rw [he]
  rfl

/-- Witness for C9 at the state holding exactly task "1". -/
theorem claim_C9_witness :
    Reachable (run resetTasks [Op.create ⟨JVal.vstr "a", JVal.undef⟩]) ∧
    ((listTasks (run resetTasks [Op.create ⟨JVal.vstr "a", JVal.undef⟩])).1 =
      run resetTasks [Op.create ⟨JVal.vstr "a", JVal.undef⟩] ∧
    (∃ ts : List Task,
      (listTasks (run resetTasks [Op.create ⟨JVal.vstr "a", JVal.undef⟩])).2 =
        ⟨200, RespBody.taskList ts⟩ ∧
      ts.Nodup ∧
      (∀ t : Task, t ∈ ts ↔
        mapGet (run resetTasks [Op.create ⟨JVal.vstr "a", JVal.undef⟩]).tasks t.id =
          some t) ∧
      ((run resetTasks [Op.create ⟨JVal.vstr "a", JVal.undef⟩]).tasks = [] → ts = [])) ∧
    listTasks (listTasks (run resetTasks [Op.create ⟨JVal.vstr "a", JVal.undef⟩])).1 =
      listTasks (run resetTasks [Op.create ⟨JVal.vstr "a", JVal.undef⟩])) :=
  ⟨⟨[Op.create ⟨JVal.vstr "a", JVal.undef⟩], rfl⟩,
    claim_C9 _ ⟨[Op.create ⟨JVal.vstr "a", JVal.undef⟩], rfl⟩⟩

/-- Claim C10: every error response is atomic — a create answering 400, a
get answering 404, an update answering 404 or 400, and a delete answering
404 all leave the task map and the counter exactly as they were. -/
theorem claim_C10 (s : StoreState) (id : String) (body : BodyInput) :
    ((createTask s body).2.status = 400 → (createTask s body).1 = s) ∧
    ((getTask s id).2.status = 404 → (getTask s id).1 = s) ∧
    ((updateTask s id body).2.status = 404 ∨ (updateTask s id body).2.status = 400 →
      (updateTask s id body).1 = s) ∧
    ((deleteTask s id).2.status = 404 → (deleteTask s id).1 = s) := by
  refine ⟨?_, fun _ => getTask_state s id, ?_, ?_⟩
  · intro h
    by_cases hc : body.title.truthy = true ∧ body.title.isString = true
    · rw [createTask_success hc.1 hc.2] at h
      simp at h
    · rw [createTask_failure (title_invalid_cases hc)]
  · intro h
    cases hg : mapGet s.tasks id with
    | none => rw [updateTask_not_found body hg]
    | some t =>
      by_cases h1 : body.title ≠ JVal.undef ∧ ¬ body.title.isString
      · rw [updateTask_title_invalid hg h1]
      · by_cases h2 : body.description ≠ JVal.undef ∧ ¬ body.description.isString
        · rw [updateTask_descr_invalid hg h1 h2]
        · rw [updateTask_success hg h1 h2] at h
          simp at h
  · intro h
    cases hg : mapGet s.tasks id with
    | none => rw [deleteTask_not_found hg]
    | some t =>
      rw [deleteTask_found hg] at h
      simp at h

/-- Witness for C10: a failed create and a get/update/delete against the
missing id "9" leave the reset state unchanged. -/
theorem claim_C10_witness :
    ((createTask resetTasks ⟨JVal.vnum 0, JVal.undef⟩).2.status = 400 →
      (createTask resetTasks ⟨JVal.vnum 0, JVal.undef⟩).1 = resetTasks) ∧
    ((getTask resetTasks "9").2.status = 404 → (getTask resetTasks "9").1 = resetTasks) ∧
    ((updateTask resetTasks "9" ⟨JVal.vnum 0, JVal.undef⟩).2.status = 404 ∨
      (updateTask resetTasks "9" ⟨JVal.vnum 0, JVal.undef⟩).2.status = 400 →
      (updateTask resetTasks "9" ⟨JVal.vnum 0, JVal.undef⟩).1 = resetTasks) ∧
    ((deleteTask resetTasks "9").2.status = 404 →
      (deleteTask resetTasks "9").1 = resetTasks) :=
  claim_C10 resetTasks "9" ⟨JVal.vnum 0, JVal.undef⟩

end TaskStore
